import Mathlib

/-!
# Verification of the `fetch` package (dataflowkit)

A shallow embedding of the repository's `fetch` package: the `Request`
value object, the direct (`BaseFetcher`) and browser-driven
(`ChromeFetcher`) retrieval strategies, the strategy selector and the
form-data helpers, together with theorems settling the frozen claims
about them.

External collaborators (the Go standard library's HTTP client and URL
parser, the viper configuration store, the Chrome devtools protocol)
are modelled as oracle records (`HTTPEnv`, `ChromeEnv`, `ProxyConfig`):
each field records the outcome one external call would produce, and the
embedded control flow is translated line by line from the source.
Effectful steps of the browser strategy are additionally recorded in an
execution trace (`List ChromeStep`) so that claims about which steps
run, and with which arguments, are statable.
-/

namespace Fetch

/-! ## Go string primitives used by the source

`strings.TrimSpace`, `strings.TrimRight(s, "/")` and `strings.Split`
with a one-character separator, modelled over `List Char`. -/

/-- The code points Go's `unicode.IsSpace` accepts: `\t \n \v \f \r ' '`,
NEL, NBSP, and the Unicode space separators. -/
def goIsSpace (c : Char) : Bool :=
  [0x09, 0x0A, 0x0B, 0x0C, 0x0D, 0x20, 0x85, 0xA0, 0x1680,
   0x2000, 0x2001, 0x2002, 0x2003, 0x2004, 0x2005, 0x2006, 0x2007,
   0x2008, 0x2009, 0x200A, 0x2028, 0x2029, 0x202F, 0x205F, 0x3000].contains c.toNat

/-- Remove the longest suffix of `l` whose characters all satisfy `p`
(the list form of Go's `strings.TrimRight`). -/
def trimRightL (p : Char → Bool) (l : List Char) : List Char :=
  (l.reverse.dropWhile p).reverse

/-- Go `strings.TrimSpace`: remove leading and trailing white space. -/
def goTrimSpace (s : String) : String :=
  ⟨trimRightL goIsSpace (s.data.dropWhile goIsSpace)⟩

/-- Whether a character is the path separator removed by
`strings.TrimRight(s, "/")`. -/
def isSlashChar (c : Char) : Bool :=
  c == '/'

/-- Go `strings.TrimRight(s, "/")`. -/
def goTrimRightSlash (s : String) : String :=
  ⟨trimRightL isSlashChar s.data⟩

/-- Go `strings.Split` restricted to a one-character separator, over
`List Char`: `splitCharL sep "" = [[]]`, and separators delimit
(possibly empty) groups. -/
def splitCharL (sep : Char) : List Char → List (List Char)
  | [] => [[]]
  | c :: rest =>
    if c = sep then [] :: splitCharL sep rest
    else
      match splitCharL sep rest with
      | [] => [[c]]
      | g :: gs => (c :: g) :: gs

/-- Go `strings.Split(s, sep)` for a one-character separator. -/
def goSplit (s : String) (sep : Char) : List String :=
  (splitCharL sep s.data).map (fun l => ⟨l⟩)

/-- The number of bytes of the UTF-8 encoding of `c` (Go strings are
byte strings; `len` counts these bytes). -/
def utf8Bytes (c : Char) : List Nat :=
  let n := c.toNat
  if n < 0x80 then [n]
  else if n < 0x800 then [0xC0 + n / 0x40, 0x80 + n % 0x40]
  else if n < 0x10000 then
    [0xE0 + n / 0x1000, 0x80 + (n / 0x40) % 0x40, 0x80 + n % 0x40]
  else
    [0xF0 + n / 0x40000, 0x80 + (n / 0x1000) % 0x40,
     0x80 + (n / 0x40) % 0x40, 0x80 + n % 0x40]

/-- Go `len(s)` on a string: the byte length of its UTF-8 encoding. -/
def goLen (s : String) : Nat :=
  (s.data.flatMap utf8Bytes).length

/-! ## Request (source lines 54-73 and 443-455) -/

/-- The `Request` struct: strategy-agnostic description of what to
retrieve. The Go field `Type` is called `type_` here because `Type` is
reserved in Lean. -/
structure Request where
  type_ : String
  URL : String
  Method : String
  FormData : String
  UserToken : String
  InfiniteScroll : Bool
deriving DecidableEq

/-- `Request.getURL` as a function of the URL string alone:
`strings.TrimRight(strings.TrimSpace(url), "/")`. -/
def normalizedURL (s : String) : String :=
  goTrimRightSlash (goTrimSpace s)

/-- `Request.getURL` (source lines 444-446): the URL field trimmed of
surrounding white space, then of trailing slashes. -/
def Request.getURL (req : Request) : String :=
  normalizedURL req.URL

/-! ## Form data: `parseFormData` (source lines 202-212) and Go's
`url.Values` with its `Encode` method.

`url.Values` is `map[string][]string`; `Add` appends a value to a key's
slice. The map is represented as an association list in first-insertion
order; map iteration order is irrelevant because `Encode` sorts the
keys. -/

/-- `url.Values.Add`: append `v` to the slice stored under `k`,
creating the entry if absent. -/
def valuesAdd : List (String × List String) → String → String → List (String × List String)
  | [], k, v => [(k, [v])]
  | (k', vs) :: rest, k, v =>
    if k = k' then (k', vs ++ [v]) :: rest
    else (k', vs) :: valuesAdd rest k v

/-- The loop body of `parseFormData`: for each `&`-separated pair,
split on `=` and add `kv[0] ↦ kv[1]`. A pair whose split has fewer
than two components makes the Go code read `kv[1]` out of bounds and
panic with an index-out-of-range runtime error; that exit is modelled
as `none`. -/
def parseFormDataLoop : List String → List (String × List String) →
    Option (List (String × List String))
  | [], acc => some acc
  | pair :: rest, acc =>
    match goSplit pair '=' with
    | k :: v :: _ => parseFormDataLoop rest (valuesAdd acc k v)
    | _ => none

/-- `parseFormData` (source lines 203-212): split the form-data string
on `&`, then each pair on `=`, and `Add` the first two components.
`none` models the index-out-of-range panic on a pair lacking `=`. -/
def parseFormData (fd : String) : Option (List (String × List String)) :=
  parseFormDataLoop (goSplit fd '&') []

/-- One hexadecimal digit, upper case, as Go's `url` escaping writes
them. -/
def hexDigit (n : Nat) : Char :=
  if n < 10 then Char.ofNat (48 + n) else Char.ofNat (55 + n)

/-- Characters Go's `url.QueryEscape` leaves unescaped: letters,
digits, `-`, `_`, `.`, `~`. -/
def isUnreservedQuery (c : Char) : Bool :=
  ('A' ≤ c && c ≤ 'Z') || ('a' ≤ c && c ≤ 'z') || ('0' ≤ c && c ≤ '9') ||
    c == '-' || c == '_' || c == '.' || c == '~'

/-- `%XX` escape of one byte. -/
def escapeByte (b : Nat) : List Char :=
  ['%', hexDigit (b / 16), hexDigit (b % 16)]

/-- Go `url.QueryEscape` of one character: unreserved characters pass
through, a space becomes `+`, everything else is percent-escaped per
UTF-8 byte. -/
def queryEscapeChar (c : Char) : List Char :=
  if isUnreservedQuery c then [c]
  else if c = ' ' then ['+']
  else (utf8Bytes c).flatMap escapeByte

/-- Go `url.QueryEscape`. -/
def queryEscape (s : String) : String :=
  ⟨s.data.flatMap queryEscapeChar⟩

/-- Byte-order comparison of Go strings (UTF-8 byte order coincides
with code-point order). -/
def strLtB (a b : String) : Bool :=
  go a.data b.data
where
  go : List Char → List Char → Bool
    | [], [] => false
    | [], _ :: _ => true
    | _ :: _, [] => false
    | c :: cs, d :: ds => if c = d then go cs ds else decide (c.toNat < d.toNat)

/-- Insertion into a `sort.Strings`-sorted list. -/
def insertSorted (x : String) : List String → List String
  | [] => [x]
  | y :: ys => if strLtB x y then x :: y :: ys else y :: insertSorted x ys

/-- `sort.Strings`: ascending byte order. -/
def sortStrings : List String → List String
  | [] => []
  | x :: xs => insertSorted x (sortStrings xs)

/-- The slice stored under key `k` (Go `v[k]`). -/
def valuesGet (vs : List (String × List String)) (k : String) : List String :=
  match vs.find? (fun p => p.1 == k) with
  | some p => p.2
  | none => []

/-- `&`-joining of the `k=v` pieces `url.Values.Encode` writes; the
`buf.Len() > 0` guard in the Go loop amounts to interspersing `&`. -/
def joinAmp : List String → String
  | [] => ""
  | [x] => x
  | x :: y :: rest => x ++ "&" ++ joinAmp (y :: rest)

/-- Go `url.Values.Encode`: keys in ascending byte order, each value in
slice order, every key and value passed through `QueryEscape`, pieces
joined by `&`. -/
def valuesEncode (vs : List (String × List String)) : String :=
  joinAmp ((sortStrings (vs.map Prod.fst)).flatMap (fun k =>
    (valuesGet vs k).map (fun v => queryEscape k ++ "=" ++ queryEscape v)))

/-! ## Error taxonomy (the `errs` package constructors the source uses)
and the direct strategy `BaseFetcher` (source lines 105-200). -/

/-- The classified errors `BaseFetcher.response` can return. `rawError`
stands for an error of `http.NewRequest` returned to the caller
unwrapped. -/
inductive FetchError where
  | badRequest
  | notFound (url : String)
  | forbidden (url : String)
  | unauthorized
  | proxyAuthRequired
  | internalServerError
  | badGateway
  | gatewayTimeout
  | unknownError
  | rawError
deriving DecidableEq

/-- The HTTP request handed to `client.Do`: method, target URL, an
optional body and the headers the source adds explicitly. -/
structure HTTPRequest where
  method : String
  url : String
  body : Option String
  headers : List (String × String)
deriving DecidableEq

/-- What one `client.Do` call returns: a transport error, or a response
with a status code and a body stream. -/
inductive DoResult where
  | failure
  | success (statusCode : Nat) (body : String)
deriving DecidableEq

/-- Oracle for the external calls `BaseFetcher` makes: whether
`url.ParseRequestURI` accepts a string, whether `http.NewRequest`
succeeds for a method/URL pair, and what `client.Do` returns for a
request. -/
structure HTTPEnv where
  parseRequestURIOk : String → Bool
  newRequestOk : String → String → Bool
  doRequest : HTTPRequest → DoResult

/-- Outcome of building the `*http.Request` (source lines 149-163):
an index-out-of-range panic from `parseFormData`, a raw
`http.NewRequest` error, or the built request. -/
inductive BuildOutcome where
  | panicOOB
  | failure
  | built (req : HTTPRequest)
deriving DecidableEq

/-- Source lines 149-163: with empty form data the request uses the
Request's method and no body; otherwise the method is forced to POST,
the body is `parseFormData(r.FormData).Encode()`, and the source adds
`Content-Type: application/x-www-form-urlencoded` and
`Content-Length: strconv.Itoa(len(body))`. Both branches build the
request from the raw `r.URL` field. -/
def buildHTTPRequest (env : HTTPEnv) (r : Request) : BuildOutcome :=
  if r.FormData = "" then
    if env.newRequestOk r.Method r.URL then
      .built ⟨r.Method, r.URL, none, []⟩
    else .failure
  else
    match parseFormData r.FormData with
    | none => .panicOOB
    | some formData =>
      if env.newRequestOk "POST" r.URL then
        .built ⟨"POST", r.URL, some (valuesEncode formData),
          [("Content-Type", "application/x-www-form-urlencoded"),
           ("Content-Length", toString (goLen (valuesEncode formData)))]⟩
      else .failure

/-- Outcome of `BaseFetcher.response`. -/
inductive RespOutcome where
  | panicOOB
  | failure (e : FetchError)
  | success (status : Nat) (body : String)
deriving DecidableEq

/-- Source lines 169-189: the `switch resp.StatusCode` taken when the
status is not 200, in the source's case order. The `400` case wraps the
(nil) `err` in `errs.BadRequest`. -/
def mapStatusCode (status : Nat) (url : String) : FetchError :=
  if status = 404 then .notFound url
  else if status = 403 then .forbidden url
  else if status = 400 then .badRequest
  else if status = 401 then .unauthorized
  else if status = 407 then .proxyAuthRequired
  else if status = 500 then .internalServerError
  else if status = 502 then .badGateway
  else if status = 504 then .gatewayTimeout
  else .unknownError

/-- `BaseFetcher.response` (source lines 135-192): validate
`r.getURL()` with `url.ParseRequestURI` (bad request on failure), build
the request, execute it once (`client.Do`; a transport error is a bad
request), then map the status code; 200 returns the response as-is. -/
def BaseFetcher.response (env : HTTPEnv) (r : Request) : RespOutcome :=
  if env.parseRequestURIOk r.getURL then
    match buildHTTPRequest env r with
    | .panicOOB => .panicOOB
    | .failure => .failure .rawError
    | .built req =>
      match env.doRequest req with
      | .failure => .failure .badRequest
      | .success status body =>
        if status ≠ 200 then .failure (mapStatusCode status r.URL)
        else .success status body
  else .failure .badRequest

/-- Outcome of `Fetcher.Fetch`: the body stream, an error, or a runtime
panic. -/
inductive FetchOutcome where
  | panicOOB
  | failure (e : FetchError)
  | success (body : String)
deriving DecidableEq

/-- `BaseFetcher.Fetch` (source lines 126-132): `response` with the
body projected out. -/
def BaseFetcher.Fetch (env : HTTPEnv) (r : Request) : FetchOutcome :=
  match BaseFetcher.response env r with
  | .panicOOB => .panicOOB
  | .failure e => .failure e
  | .success _ body => .success body

/-- The request `BaseFetcher.response` hands to `client.Do`, when the
call reaches that point: validation must pass and the build must
succeed. A projection of the same control flow as `response`. -/
def outboundRequest (env : HTTPEnv) (r : Request) : Option HTTPRequest :=
  if env.parseRequestURIOk r.getURL then
    match buildHTTPRequest env r with
    | .built req => some req
    | _ => none
  else none

/-! ## Browser strategy `ChromeFetcher` (source lines 218-441)

The protocol work is effectful, so the embedding returns, next to the
outcome, the trace of protocol steps the call performed, in order. A
step enters the trace when the source attempts it. The background
abort-listener goroutine (lines 266-275) and the interception goroutine
(lines 374-388) only move errors between channels and are not separate
failure points of the deterministic control flow modelled here; the
`defer conn.Close()` of line 261 appears as a `closeConn` step on every
exit path after the dial succeeded. -/

/-- The protocol steps `ChromeFetcher.Fetch` can perform, with the
arguments the source passes: `navigateStep` records the method, target
URL, form-data body and timeout (in seconds) given to `navigate`. -/
inductive ChromeStep where
  | devtoolGet
  | dialConn
  | closeConn
  | enableDOM
  | enableNetwork
  | enablePage
  | enableRuntime
  | navigateStep (method : String) (url : String) (formData : String) (timeoutSec : Nat)
  | sleepGrace
  | runScrollScript
  | getDocument
  | getOuterHTML
deriving DecidableEq

/-- The errors a browser-strategy call can return, one per failure
point of the source. -/
inductive ChromeError where
  | badRequest
  | devtoolError
  | dialError
  | enableError
  | navEnableError
  | navSubscribeError
  | navNavigateError
  | navTimeout
  | scrollScriptError
  | getDocumentError
  | getOuterHTMLError
deriving DecidableEq

/-- Outcome of `ChromeFetcher.Fetch`: the serialized document, a
returned error, or a Go runtime panic (`parseFormData` out-of-range
indexing, or the `panic(err)` calls in `runJSFromFile`). -/
inductive ChromeOutcome where
  | panicked
  | failure (e : ChromeError)
  | success (body : String)
deriving DecidableEq

/-- What happens inside one `navigate` call (source lines 350-396):
its `pageClient.Enable`, the `DOMContentEventFired` subscription, the
`Page.Navigate` call, and then the bounded wait for the
DOM-content-loaded signal, which either arrives in the window or the
timeout expires. -/
inductive NavigateOutcome where
  | enableFailed
  | subscribeFailed
  | navigateFailed
  | timedOut
  | loaded
deriving DecidableEq

/-- Oracle for the external calls `ChromeFetcher` makes. The four
`enable*Ok` fields are the outcomes of the `DOM.Enable`,
`Network.Enable`, `Page.Enable` and `Runtime.Enable` calls of the
`runBatch` (source lines 283-291); `scrollReadOk`/`scrollCompileOk`
fail by panicking in `runJSFromFile` (source lines 399-410),
`scrollRunOk` by returning the `RunScript` error. -/
structure ChromeEnv where
  parseRequestURIOk : String → Bool
  devtoolOk : Bool
  dialOk : Bool
  enableDOMOk : Bool
  enableNetworkOk : Bool
  enablePageOk : Bool
  enableRuntimeOk : Bool
  navigateOutcome : NavigateOutcome
  scrollReadOk : Bool
  scrollCompileOk : Bool
  scrollRunOk : Bool
  getDocumentOk : Bool
  getOuterHTMLOk : Bool
  outerHTML : String

/-- `navigate` (source lines 350-396) as a function of what happens
inside it: the first failing step's error, or `none` when the
DOM-content-loaded signal arrived within the timeout window. -/
def ChromeFetcher.navigate : NavigateOutcome → Option ChromeError
  | .enableFailed => some .navEnableError
  | .subscribeFailed => some .navSubscribeError
  | .navigateFailed => some .navNavigateError
  | .timedOut => some .navTimeout
  | .loaded => none

/-- `domLoadTimeout := 5 * time.Second` (source line 292), in
seconds. -/
def domLoadTimeoutSeconds : Nat := 5

/-- The results of the four capability activations, in the order the
source passes them to `runBatch` (source lines 283-291). -/
def enableResults (env : ChromeEnv) : List (Option ChromeError) :=
  [if env.enableDOMOk then none else some .enableError,
   if env.enableNetworkOk then none else some .enableError,
   if env.enablePageOk then none else some .enableError,
   if env.enableRuntimeOk then none else some .enableError]

/-- The four activation steps; a plain `errgroup.Group` (source lines
435-441) starts all of them and waits for all of them, so all four are
always performed once the batch starts. -/
def enableSteps : List ChromeStep :=
  [.enableDOM, .enableNetwork, .enablePage, .enableRuntime]

/-- `errgroup.Group.Wait` of a zero-value group: every function runs to
completion and the first recorded error (determinized here to list
order) is returned; nothing cancels the others. -/
def firstError : List (Option ChromeError) → Option ChromeError
  | [] => none
  | none :: rest => firstError rest
  | some e :: _ => some e

/-- Source lines 318-333: fetch the document root (`DOM.GetDocument`),
then its serialized markup (`DOM.GetOuterHTML`), wrapped as a reader. -/
def chromeExtract (env : ChromeEnv) : ChromeOutcome × List ChromeStep :=
  if env.getDocumentOk then
    if env.getOuterHTMLOk then
      (.success env.outerHTML, [.getDocument, .getOuterHTML])
    else (.failure .getOuterHTMLError, [.getDocument, .getOuterHTML])
  else (.failure .getDocumentError, [.getDocument])

/-- Source lines 309-334: the optional infinite-scroll phase
(`time.Sleep(3s)` then `runJSFromFile`, whose read and compile failures
panic and whose run failure returns an error that aborts the call),
followed by document extraction. -/
def chromeAfterNav (env : ChromeEnv) (r : Request) : ChromeOutcome × List ChromeStep :=
  if r.InfiniteScroll then
    if env.scrollReadOk then
      if env.scrollCompileOk then
        if env.scrollRunOk then
          ((chromeExtract env).1, [.sleepGrace, .runScrollScript] ++ (chromeExtract env).2)
        else (.failure .scrollScriptError, [.sleepGrace, .runScrollScript])
      else (.panicked, [.sleepGrace, .runScrollScript])
    else (.panicked, [.sleepGrace, .runScrollScript])
  else chromeExtract env

/-- Source lines 292-301: the navigation phase. With empty form data
the source calls `navigate` with the literal method `"GET"` and the
normalized URL, and checks the returned error. With form data present
it parses the form data (panicking on a malformed pair), calls
`navigate` with method `"POST"`, the normalized URL and the encoded
body — and assigns the returned error to `err` without ever checking
it, so control falls through to the next phase whatever `navigate`
returned. -/
def chromeNavPhase (env : ChromeEnv) (r : Request) : ChromeOutcome × List ChromeStep :=
  if r.FormData = "" then
    match ChromeFetcher.navigate env.navigateOutcome with
    | some e => (.failure e, [.navigateStep "GET" r.getURL "" domLoadTimeoutSeconds])
    | none => ((chromeAfterNav env r).1,
        .navigateStep "GET" r.getURL "" domLoadTimeoutSeconds :: (chromeAfterNav env r).2)
  else
    match parseFormData r.FormData with
    | none => (.panicked, [])
    | some fd => ((chromeAfterNav env r).1,
        .navigateStep "POST" r.getURL (valuesEncode fd) domLoadTimeoutSeconds
          :: (chromeAfterNav env r).2)

/-- Source lines 283-291: the `runBatch` of the four capability
activations. All four run; if the batch reports an error the call
returns it before any navigation. -/
def chromeEnablePhase (env : ChromeEnv) (r : Request) : ChromeOutcome × List ChromeStep :=
  match firstError (enableResults env) with
  | some e => (.failure e, enableSteps)
  | none => ((chromeNavPhase env r).1, enableSteps ++ (chromeNavPhase env r).2)

/-- `ChromeFetcher.Fetch` (source lines 239-335): validate
`strings.TrimSpace(request.getURL())` with `url.ParseRequestURI` (bad
request on failure), discover a page target (`devtool.Get`), dial the
protocol socket (`rpcc.DialContext`, with `defer conn.Close()`), then
the activation, navigation, optional-scroll and extraction phases. -/
def ChromeFetcher.Fetch (env : ChromeEnv) (r : Request) : ChromeOutcome × List ChromeStep :=
  if env.parseRequestURIOk (goTrimSpace r.getURL) then
    if env.devtoolOk then
      if env.dialOk then
        ((chromeEnablePhase env r).1,
          .devtoolGet :: .dialConn :: ((chromeEnablePhase env r).2 ++ [.closeConn]))
      else (.failure .dialError, [.devtoolGet, .dialConn])
    else (.failure .devtoolError, [.devtoolGet])
  else (.failure .badRequest, [])

/-! ## Strategy selector and constructors (source lines 90-123 and
218-236) -/

/-- The proxy configuration the constructors read: the `PROXY` value
from the external configuration store, and whether `url.Parse` accepts
it (an external-parser oracle). -/
structure ProxyConfig where
  proxy : String
  proxyParseOk : Bool

/-- The `http.Client` both constructors build: with a transport routed
through the proxy URL, or a default client. -/
structure GoHTTPClient where
  proxyURL : Option String
deriving DecidableEq

/-- The `BaseFetcher` struct as constructed (`jar` starts nil). -/
structure BaseFetcherState where
  client : GoHTTPClient
deriving DecidableEq

/-- The `ChromeFetcher` struct as constructed. -/
structure ChromeFetcherState where
  client : GoHTTPClient
deriving DecidableEq

/-- `newBaseFetcher` (source lines 105-123): with a non-empty `PROXY`
value that `url.Parse` rejects, the error is logged and the function
returns nil (`none`); otherwise a fetcher with the corresponding
client. -/
def newBaseFetcher (cfg : ProxyConfig) : Option BaseFetcherState :=
  if 0 < cfg.proxy.length then
    if cfg.proxyParseOk then some ⟨⟨some cfg.proxy⟩⟩ else none
  else some ⟨⟨none⟩⟩

/-- `newChromeFetcher` (source lines 218-236): same proxy handling as
`newBaseFetcher`. -/
def newChromeFetcher (cfg : ProxyConfig) : Option ChromeFetcherState :=
  if 0 < cfg.proxy.length then
    if cfg.proxyParseOk then some ⟨⟨some cfg.proxy⟩⟩ else none
  else some ⟨⟨none⟩⟩

/-- What `newFetcher` hands back as the `Fetcher` interface value: a
`*BaseFetcher` or a `*ChromeFetcher`, either of which may be the typed
nil pointer the constructors return on a bad proxy value. -/
inductive FetcherInstance where
  | base (f : Option BaseFetcherState)
  | chrome (f : Option ChromeFetcherState)
deriving DecidableEq

/-- `newFetcher` (source lines 90-100): dispatch on the type name;
an unknown name panics (`logger.Panicf`), modelled as `none`. -/
def newFetcher (cfg : ProxyConfig) (t : String) : Option FetcherInstance :=
  if t = "Base" then some (.base (newBaseFetcher cfg))
  else if t = "Chrome" then some (.chrome (newChromeFetcher cfg))
  else none

/-- Outcome of running a pointer-receiver method on a possibly-nil
receiver (Go dispatches such a call; the panic happens only at the
first field access through the receiver): either that access
dereferenced nil, or the method ran to its ordinary result. -/
inductive NilOr (α : Type) where
  | nilDereference
  | ran (a : α)
deriving DecidableEq

/-- `BaseFetcher.response` (source lines 135-192) run on a
possibly-nil `*BaseFetcher` receiver: the URL validation of line 137
touches no receiver field and can return bad request first; the
`bf.jar` read of line 141 is the first access through the receiver and
panics on the nil pointer; from there the body is the one modelled by
`BaseFetcher.response`. -/
def BaseFetcher.responseOnReceiver (bf : Option BaseFetcherState) (env : HTTPEnv)
    (r : Request) : NilOr RespOutcome :=
  if env.parseRequestURIOk r.getURL then
    match bf with
    | none => .nilDereference
    | some _ =>
      match buildHTTPRequest env r with
      | .panicOOB => .ran .panicOOB
      | .failure => .ran (.failure .rawError)
      | .built req =>
        match env.doRequest req with
        | .failure => .ran (.failure .badRequest)
        | .success status body =>
          if status ≠ 200 then .ran (.failure (mapStatusCode status r.URL))
          else .ran (.success status body)
  else .ran (.failure .badRequest)

/-- `BaseFetcher.Fetch` (source lines 126-132) run on a possibly-nil
receiver: the method call itself is fine on nil; everything happens
inside `response`. -/
def BaseFetcher.fetchOnReceiver (bf : Option BaseFetcherState) (env : HTTPEnv)
    (r : Request) : NilOr FetchOutcome :=
  match BaseFetcher.responseOnReceiver bf env r with
  | .nilDereference => .nilDereference
  | .ran .panicOOB => .ran .panicOOB
  | .ran (.failure e) => .ran (.failure e)
  | .ran (.success _ body) => .ran (.success body)

/-- `ChromeFetcher.Fetch` (source lines 239-335) run on a possibly-nil
`*ChromeFetcher` receiver: the URL validation of line 241 touches no
receiver field and can return bad request first; the `f.jar` read of
line 244 is the first access through the receiver and panics on the
nil pointer; from there the body is the one modelled by
`ChromeFetcher.Fetch`. -/
def ChromeFetcher.fetchOnReceiver (cf : Option ChromeFetcherState) (env : ChromeEnv)
    (r : Request) : NilOr (ChromeOutcome × List ChromeStep) :=
  if env.parseRequestURIOk (goTrimSpace r.getURL) then
    match cf with
    | none => .nilDereference
    | some _ =>
      if env.devtoolOk then
        if env.dialOk then
          .ran ((chromeEnablePhase env r).1,
            .devtoolGet :: .dialConn :: ((chromeEnablePhase env r).2 ++ [.closeConn]))
        else .ran (.failure .dialError, [.devtoolGet, .dialConn])
      else .ran (.failure .devtoolError, [.devtoolGet])
  else .ran (.failure .badRequest, [])

/-! ## The spec's status table, and concrete fixtures used by the
theorems below -/

/-- The status-to-error table of spec section 6, written from the
spec's words (not from the source): 200 success with the body as-is,
400 bad request, 401 unauthorized, 403 forbidden, 404 not found,
407 proxy authentication required, 500 internal server error,
502 bad gateway, 504 gateway timeout, anything else unknown error. -/
def specStatusOutcome (status : Nat) (url : String) (body : String) : RespOutcome :=
  if status = 200 then .success 200 body
  else if status = 400 then .failure .badRequest
  else if status = 401 then .failure .unauthorized
  else if status = 403 then .failure (.forbidden url)
  else if status = 404 then .failure (.notFound url)
  else if status = 407 then .failure .proxyAuthRequired
  else if status = 500 then .failure .internalServerError
  else if status = 502 then .failure .badGateway
  else if status = 504 then .failure .gatewayTimeout
  else .failure .unknownError

/-- An HTTP oracle whose validation and request construction always
succeed and whose transport always fails (its response is irrelevant
to request construction). -/
def httpEnvAccept : HTTPEnv :=
  ⟨fun _ => true, fun _ _ => true, fun _ => .failure⟩

/-- An HTTP oracle answering 404 with body `"missing"` to every
request. -/
def httpEnv404 : HTTPEnv :=
  ⟨fun _ => true, fun _ _ => true, fun _ => .success 404 "missing"⟩

/-- The spec's form-submission scenario request: URL
`http://example.com/login`, form data `user=a&pass=b`. -/
def loginRequest : Request :=
  ⟨"", "http://example.com/login", "GET", "user=a&pass=b", "", false⟩

/-- A plain GET request with no form data. -/
def plainRequest : Request :=
  ⟨"", "http://example.com", "GET", "", "", false⟩

/-- A request whose raw URL carries a trailing slash, so that the raw
and the normalized URL differ. -/
def slashRequest : Request :=
  ⟨"", "http://example.com/", "GET", "", "", false⟩

/-- A request with a non-GET method and no form data. -/
def deleteRequest : Request :=
  ⟨"", "http://example.com", "DELETE", "", "", false⟩

/-- A browser oracle where every external call succeeds and the
rendered document is `<html>ok</html>`. -/
def chromeEnvOk : ChromeEnv :=
  ⟨fun _ => true, true, true, true, true, true, true, .loaded, true, true, true, true, true,
   "<html>ok</html>"⟩

/-- `chromeEnvOk` with the document-model activation failing. -/
def chromeEnvDOMFail : ChromeEnv :=
  { chromeEnvOk with enableDOMOk := false }

/-- `chromeEnvOk` with the script-execution activation failing. -/
def chromeEnvRuntimeFail : ChromeEnv :=
  { chromeEnvOk with enableRuntimeOk := false }

/-- `chromeEnvOk` with the DOM-content-loaded signal never arriving
inside the timeout window. -/
def chromeEnvNavTimeout : ChromeEnv :=
  { chromeEnvOk with navigateOutcome := .timedOut }

/-- An HTTP oracle whose URL validation rejects every string. -/
def httpEnvReject : HTTPEnv :=
  ⟨fun _ => false, fun _ _ => true, fun _ => .failure⟩

/-- `chromeEnvOk` with URL validation rejecting every string. -/
def chromeEnvReject : ChromeEnv :=
  { chromeEnvOk with parseRequestURIOk := fun _ => false }

/-- A non-empty proxy value that the URL parser rejects. -/
def badProxyConfig : ProxyConfig :=
  ⟨"http://%zz", false⟩

/-! ## Helper lemmas about `dropWhile` and `trimRightL` -/

theorem head?_dropWhile_false {p : Char → Bool} {l : List Char} {c : Char}
    (h : (l.dropWhile p).head? = some c) : p c = false := by
  have hx := List.head?_dropWhile_not p l
  rw [h] at hx
  exact hx

theorem dropWhile_eq_self_of_head {p : Char → Bool} {l : List Char}
    (h : ∀ c, l.head? = some c → p c = false) : l.dropWhile p = l := by
  cases l with
  | nil => rfl
  | cons a t =>
      have ha := h a rfl
      simp [List.dropWhile_cons, ha]

theorem dropWhile_isSuffix (p : Char → Bool) : ∀ l : List Char, l.dropWhile p <:+ l
  | [] => List.suffix_refl _
  | a :: t => by
      by_cases ha : p a
      · simpa [List.dropWhile_cons, ha] using
          (dropWhile_isSuffix p t).trans (List.suffix_cons a t)
      · simp [List.dropWhile_cons, ha]

theorem trimRightL_isPrefix (p : Char → Bool) (l : List Char) : trimRightL p l <+: l := by
  have h : l.reverse.dropWhile p <:+ l.reverse := dropWhile_isSuffix p l.reverse
  have h2 := List.reverse_prefix.mpr h
  simpa using h2

theorem trimRightL_eq_self {p : Char → Bool} {l : List Char}
    (h : ∀ c, l.getLast? = some c → p c = false) : trimRightL p l = l := by
  unfold trimRightL
  have h2 : l.reverse.dropWhile p = l.reverse := by
    apply dropWhile_eq_self_of_head
    intro c hc
    rw [List.head?_reverse] at hc
    exact h c hc
  rw [h2, List.reverse_reverse]

theorem head?_eq_of_isPrefix {m l : List Char} {c : Char} (hp : m <+: l)
    (h : m.head? = some c) : l.head? = some c := by
  obtain ⟨t, rfl⟩ := hp
  rw [List.head?_append, h]
  rfl

theorem trimRightL_getLast?_false {p : Char → Bool} {l : List Char} {c : Char}
    (h : (trimRightL p l).getLast? = some c) : p c = false := by
  unfold trimRightL at h
  rw [List.getLast?_reverse] at h
  exact head?_dropWhile_false h

/-! ## C5: idempotence of URL normalization -/

/-- C5 (amended): `getURL`/`normalizedURL` first trims surrounding
white space, then trailing slashes, leaving the rest of the string
unchanged; it is idempotent on every URL whose normalized form does not
end in a white-space character (removing trailing slashes can re-expose
trailing white space, so the claim's unconditional idempotence fails;
see the counterexample). -/
theorem normalizedURL_idem (s : String)
    (h : Option.all (fun c => !goIsSpace c) (normalizedURL s).data.getLast? = true) :
    normalizedURL (normalizedURL s) = normalizedURL s := by
  have hlast : ∀ c, (normalizedURL s).data.getLast? = some c → goIsSpace c = false := by
    intro c hc
    rw [hc] at h
    simpa using h
  have hhead : ∀ c, (normalizedURL s).data.head? = some c → goIsSpace c = false := by
    intro c hc
    have hpre : (normalizedURL s).data <+: s.data.dropWhile goIsSpace :=
      (trimRightL_isPrefix isSlashChar _).trans (trimRightL_isPrefix goIsSpace _)
    exact head?_dropWhile_false (head?_eq_of_isPrefix hpre hc)
  have hslash : ∀ c, (normalizedURL s).data.getLast? = some c → isSlashChar c = false := by
    intro c hc
    exact trimRightL_getLast?_false hc
  have e1 : (normalizedURL s).data.dropWhile goIsSpace = (normalizedURL s).data :=
    dropWhile_eq_self_of_head hhead
  have e2 : trimRightL goIsSpace (normalizedURL s).data = (normalizedURL s).data :=
    trimRightL_eq_self hlast
  have e3 : trimRightL isSlashChar (normalizedURL s).data = (normalizedURL s).data :=
    trimRightL_eq_self hslash
  show (⟨trimRightL isSlashChar
    (trimRightL goIsSpace ((normalizedURL s).data.dropWhile goIsSpace))⟩ : String) =
    normalizedURL s
  rw [e1, e2, e3]

/-- C5 witness: a URL with surrounding white space and trailing slashes
whose normalized form ends in a letter; idempotence holds there. -/
theorem normalizedURL_idem_witness :
    normalizedURL (normalizedURL " http://example.com// ") =
      normalizedURL " http://example.com// " :=
  normalizedURL_idem " http://example.com// " (by decide)

/-- C5 counterexample: for `"http://x.com /"` one normalization yields
`"http://x.com "` (the slash removal re-exposes a trailing blank) and a
second normalization yields `"http://x.com"`, so normalizing twice
differs from normalizing once. -/
theorem normalizedURL_not_idem_cex :
    normalizedURL (normalizedURL "http://x.com /") ≠ normalizedURL "http://x.com /" := by
  decide

/-! ## C7: totality of `parseFormData` -/

theorem splitCharL_ne_nil (sep : Char) : ∀ l : List Char, splitCharL sep l ≠ []
  | [] => by simp [splitCharL]
  | c :: rest => by
      by_cases h : c = sep
      · simp [splitCharL, h]
      · have hr := splitCharL_ne_nil sep rest
        simp only [splitCharL, if_neg h]
        cases hs : splitCharL sep rest with
        | nil => exact absurd hs hr
        | cons g gs => simp

theorem splitCharL_length_pos (sep : Char) (l : List Char) : 0 < (splitCharL sep l).length := by
  cases hs : splitCharL sep l with
  | nil => exact absurd hs (splitCharL_ne_nil sep l)
  | cons g gs => simp

/-- The split of a pair on a separator has a second component exactly
when the separator occurs in the pair. -/
theorem two_le_splitCharL_iff (sep : Char) :
    ∀ l : List Char, 2 ≤ (splitCharL sep l).length ↔ sep ∈ l
  | [] => by simp [splitCharL]
  | c :: rest => by
      by_cases h : c = sep
      · subst h
        have hp := splitCharL_length_pos c rest
        have hu : splitCharL c (c :: rest) = [] :: splitCharL c rest := by
          simp [splitCharL]
        rw [hu]
        simp only [List.length_cons]
        constructor
        · intro _
          simp
        · intro _
          omega
      · simp only [splitCharL, if_neg h]
        cases hs : splitCharL sep rest with
        | nil => exact absurd hs (splitCharL_ne_nil sep rest)
        | cons g gs =>
            have ih := two_le_splitCharL_iff sep rest
            rw [hs] at ih
            simp only [List.length_cons, List.mem_cons] at ih ⊢
            constructor
            · intro h2
              exact Or.inr (ih.mp (by omega))
            · intro h2
              rcases h2 with h2 | h2
              · exact absurd h2.symm h
              · have := ih.mpr h2
                omega

theorem parseFormDataLoop_isSome (pairs : List String) :
    ∀ acc, (parseFormDataLoop pairs acc).isSome = true ↔
      ∀ p ∈ pairs, 2 ≤ (goSplit p '=').length := by
  induction pairs with
  | nil =>
      intro acc
      simp [parseFormDataLoop]
  | cons p rest ih =>
      intro acc
      simp only [parseFormDataLoop]
      cases hs : goSplit p '=' with
      | nil =>
          simp only [Option.isSome_none, List.mem_cons]
          constructor
          · intro h2
            cases h2
          · intro h2
            have := h2 p (Or.inl rfl)
            rw [hs] at this
            simp at this
      | cons k tl =>
          cases tl with
          | nil =>
              simp only [Option.isSome_none, List.mem_cons]
              constructor
              · intro h2
                cases h2
              · intro h2
                have := h2 p (Or.inl rfl)
                rw [hs] at this
                simp at this
          | cons v tl2 =>
              rw [ih]
              constructor
              · intro h2 q hq
                rcases List.mem_cons.mp hq with hq | hq
                · subst hq
                  rw [hs]
                  simp
                · exact h2 q hq
              · intro h2 q hq
                exact h2 q (List.mem_cons_of_mem p hq)

/-- C7: form-data parsing is total exactly when every `&`-separated
pair of the input contains an `=`; on an input with a pair lacking `=`
(such as `"key"`, whose split on `=` has a single component) the Go
loop reads `kv[1]` out of bounds, modelled by `parseFormData`
returning `none`. -/
theorem parseFormData_total_iff :
    (∀ fd : String, (parseFormData fd).isSome = true ↔
      ∀ pair ∈ goSplit fd '&', '=' ∈ pair.data) ∧
    parseFormData "key" = none := by
  constructor
  · intro fd
    rw [parseFormData, parseFormDataLoop_isSome]
    constructor
    · intro h2 pair hp
      have := h2 pair hp
      rw [goSplit, List.length_map, two_le_splitCharL_iff] at this
      exact this
    · intro h2 pair hp
      rw [goSplit, List.length_map, two_le_splitCharL_iff]
      exact h2 pair hp
  · decide

/-! ## C1: the direct strategy's form-data POST -/

/-- C1 (amended): for every Request with non-empty form data (whose
pairs all parse), the direct strategy hands `client.Do` a POST request
regardless of the Request's method, with header `Content-Type:
application/x-www-form-urlencoded` and `Content-Length` equal to the
byte length of the body it sends — but that body is
`url.Values.Encode` of the parsed pairs (keys percent-re-escaped and
sorted), not the Request's form-data string; for `"user=a&pass=b"` the
body is `"pass=b&user=a"`. -/
theorem directFormData_issues_POST (env : HTTPEnv) (r : Request)
    (vals : List (String × List String))
    (hfd : r.FormData ≠ "") (hparse : parseFormData r.FormData = some vals)
    (hvalid : env.parseRequestURIOk r.getURL = true)
    (hnew : env.newRequestOk "POST" r.URL = true) :
    outboundRequest env r =
      some ⟨"POST", r.URL, some (valuesEncode vals),
        [("Content-Type", "application/x-www-form-urlencoded"),
         ("Content-Length", toString (goLen (valuesEncode vals)))]⟩ := by
  simp [outboundRequest, hvalid, buildHTTPRequest, hfd, hparse, hnew]

/-- C1 witness: the spec's login scenario, with the Request's method
GET, produces an outbound POST with the stated headers. -/
theorem directFormData_issues_POST_witness :
    outboundRequest httpEnvAccept loginRequest =
      some ⟨"POST", "http://example.com/login",
        some (valuesEncode [("user", ["a"]), ("pass", ["b"])]),
        [("Content-Type", "application/x-www-form-urlencoded"),
         ("Content-Length",
          toString (goLen (valuesEncode [("user", ["a"]), ("pass", ["b"])])))]⟩ :=
  directFormData_issues_POST httpEnvAccept loginRequest [("user", ["a"]), ("pass", ["b"])]
    (by decide) (by decide) rfl rfl

/-- C1 counterexample: for form data `"user=a&pass=b"` the outbound
body is `"pass=b&user=a"` (keys sorted by `url.Values.Encode`), not the
claimed `"user=a&pass=b"`. -/
theorem directFormData_body_reencoded_cex :
    outboundRequest httpEnvAccept loginRequest =
      some ⟨"POST", "http://example.com/login", some "pass=b&user=a",
        [("Content-Type", "application/x-www-form-urlencoded"),
         ("Content-Length", "13")]⟩ ∧
    "pass=b&user=a" ≠ "user=a&pass=b" := by
  decide

/-! ## C3: the direct strategy's status-code mapping -/

theorem mapStatusCode_matches_spec (status : Nat) (u b : String) :
    (if status ≠ 200 then RespOutcome.failure (mapStatusCode status u)
     else RespOutcome.success status b) = specStatusOutcome status u b := by
  by_cases h200 : status = 200
  · subst h200
    simp [specStatusOutcome]
  · rw [if_pos h200]
    unfold mapStatusCode specStatusOutcome
    by_cases h404 : status = 404
    · subst h404
      simp
    · by_cases h403 : status = 403
      · subst h403
        simp
      · by_cases h400 : status = 400
        · subst h400
          simp
        · by_cases h401 : status = 401
          · subst h401
            simp
          · by_cases h407 : status = 407
            · subst h407
              simp
            · by_cases h500 : status = 500
              · subst h500
                simp
              · by_cases h502 : status = 502
                · subst h502
                  simp
                · by_cases h504 : status = 504
                  · subst h504
                    simp
                  · simp [h200, h400, h401, h403, h404, h407, h500, h502, h504]

/-- C3: whenever the direct strategy's call reaches `client.Do` (URL
validation passed, request built) and a response comes back, the
response outcome is exactly the spec's fixed status table — 200
succeeds with the response body unmodified (and `Fetch` returns that
body), every tabulated code maps to its documented error, and any other
code maps to the unknown error. -/
theorem direct_status_mapping (env : HTTPEnv) (r : Request) (req : HTTPRequest)
    (status : Nat) (body : String)
    (hout : outboundRequest env r = some req)
    (hdo : env.doRequest req = .success status body) :
    BaseFetcher.response env r = specStatusOutcome status r.URL body ∧
    (status = 200 → BaseFetcher.Fetch env r = .success body) := by
  unfold outboundRequest at hout
  by_cases hv : env.parseRequestURIOk r.getURL
  · rw [if_pos hv] at hout
    cases hb : buildHTTPRequest env r with
    | panicOOB =>
        rw [hb] at hout
        cases hout
    | failure =>
        rw [hb] at hout
        cases hout
    | built req' =>
        rw [hb] at hout
        simp only [Option.some.injEq] at hout
        subst hout
        have hresp : BaseFetcher.response env r =
            (if status ≠ 200 then RespOutcome.failure (mapStatusCode status r.URL)
             else RespOutcome.success status body) := by
          simp [BaseFetcher.response, hv, hb, hdo]
        constructor
        · rw [hresp, mapStatusCode_matches_spec]
        · intro h200
          subst h200
          unfold BaseFetcher.Fetch
          rw [hresp]
          simp
  · rw [if_neg hv] at hout
    cases hout

/-- C3 witness: a 404 response maps to the not-found entry of the
table. -/
theorem direct_status_mapping_witness :
    BaseFetcher.response httpEnv404 plainRequest =
      specStatusOutcome 404 "http://example.com" "missing" ∧
    (404 = 200 → BaseFetcher.Fetch httpEnv404 plainRequest = .success "missing") :=
  direct_status_mapping httpEnv404 plainRequest ⟨"GET", "http://example.com", none, []⟩
    404 "missing" (by decide) rfl

/-! ## Helper lemmas about the browser strategy's trace -/

theorem navStep_not_mem_chromeExtract (env : ChromeEnv) (m u f : String) (t : Nat) :
    ChromeStep.navigateStep m u f t ∉ (chromeExtract env).2 := by
  unfold chromeExtract
  split_ifs <;> simp

theorem navStep_not_mem_chromeAfterNav (env : ChromeEnv) (r : Request) (m u f : String) (t : Nat) :
    ChromeStep.navigateStep m u f t ∉ (chromeAfterNav env r).2 := by
  unfold chromeAfterNav
  split_ifs <;> simp [navStep_not_mem_chromeExtract]

/-- Every navigation step recorded by `chromeNavPhase` targets the
normalized URL with the 5-second timeout, and its method is the
hard-coded `"GET"` (empty form data) or `"POST"` (form data
present). -/
theorem chromeNavPhase_navStep (env : ChromeEnv) (r : Request) (m u f : String) (t : Nat)
    (h : ChromeStep.navigateStep m u f t ∈ (chromeNavPhase env r).2) :
    u = r.getURL ∧ t = domLoadTimeoutSeconds ∧
      ((m = "GET" ∧ r.FormData = "" ∧ f = "") ∨ (m = "POST" ∧ r.FormData ≠ "")) := by
  unfold chromeNavPhase at h
  by_cases hfd : r.FormData = ""
  · rw [if_pos hfd] at h
    cases hn : ChromeFetcher.navigate env.navigateOutcome with
    | some e =>
        rw [hn] at h
        simp only [List.mem_singleton] at h
        obtain ⟨hm, hu, hf, ht⟩ := ChromeStep.navigateStep.inj h
        exact ⟨hu, ht, Or.inl ⟨hm, hfd, hf⟩⟩
    | none =>
        rw [hn] at h
        simp only [List.mem_cons] at h
        rcases h with h | h
        · obtain ⟨hm, hu, hf, ht⟩ := ChromeStep.navigateStep.inj h
          exact ⟨hu, ht, Or.inl ⟨hm, hfd, hf⟩⟩
        · exact absurd h (navStep_not_mem_chromeAfterNav env r m u f t)
  · rw [if_neg hfd] at h
    cases hp : parseFormData r.FormData with
    | none =>
        rw [hp] at h
        simp at h
    | some fd =>
        rw [hp] at h
        simp only [List.mem_cons] at h
        rcases h with h | h
        · obtain ⟨hm, hu, hf, ht⟩ := ChromeStep.navigateStep.inj h
          exact ⟨hu, ht, Or.inr ⟨hm, hfd⟩⟩
        · exact absurd h (navStep_not_mem_chromeAfterNav env r m u f t)

theorem chromeEnablePhase_navStep (env : ChromeEnv) (r : Request) (m u f : String) (t : Nat)
    (h : ChromeStep.navigateStep m u f t ∈ (chromeEnablePhase env r).2) :
    u = r.getURL ∧ t = domLoadTimeoutSeconds ∧
      ((m = "GET" ∧ r.FormData = "" ∧ f = "") ∨ (m = "POST" ∧ r.FormData ≠ "")) := by
  unfold chromeEnablePhase at h
  cases hf : firstError (enableResults env) with
  | some e =>
      rw [hf] at h
      simp [enableSteps] at h
  | none =>
      rw [hf] at h
      simp only [enableSteps, List.mem_append, List.mem_cons, List.not_mem_nil] at h
      rcases h with h | h
      · simp at h
      · exact chromeNavPhase_navStep env r m u f t h

theorem chromeFetch_navStep (env : ChromeEnv) (r : Request) (m u f : String) (t : Nat)
    (h : ChromeStep.navigateStep m u f t ∈ (ChromeFetcher.Fetch env r).2) :
    u = r.getURL ∧ t = domLoadTimeoutSeconds ∧
      ((m = "GET" ∧ r.FormData = "" ∧ f = "") ∨ (m = "POST" ∧ r.FormData ≠ "")) := by
  unfold ChromeFetcher.Fetch at h
  by_cases hv : env.parseRequestURIOk (goTrimSpace r.getURL)
  · rw [if_pos hv] at h
    by_cases hdt : env.devtoolOk
    · rw [if_pos hdt] at h
      by_cases hdl : env.dialOk
      · rw [if_pos hdl] at h
        simp only [List.mem_cons, List.mem_append] at h
        rcases h with h | h | h | h | h
        · cases h
        · cases h
        · exact chromeEnablePhase_navStep env r m u f t h
        · cases h
        · exact absurd h (List.not_mem_nil _)
      · rw [if_neg hdl] at h
        simp at h
    · rw [if_neg hdt] at h
      simp at h
  · rw [if_neg hv] at h
    simp at h

/-! ## C6: which URL each strategy actually targets -/

theorem buildHTTPRequest_url (env : HTTPEnv) (r : Request) (req : HTTPRequest)
    (h : buildHTTPRequest env r = .built req) : req.url = r.URL := by
  unfold buildHTTPRequest at h
  by_cases hfd : r.FormData = ""
  · rw [if_pos hfd] at h
    by_cases hn : env.newRequestOk r.Method r.URL
    · rw [if_pos hn] at h
      cases h
      rfl
    · rw [if_neg hn] at h
      cases h
  · rw [if_neg hfd] at h
    cases hp : parseFormData r.FormData with
    | none =>
        rw [hp] at h
        cases h
    | some fd =>
        rw [hp] at h
        dsimp only at h
        by_cases hn : env.newRequestOk "POST" r.URL
        · rw [if_pos hn] at h
          cases h
          rfl
        · rw [if_neg hn] at h
          cases h

/-- C6 (amended): the browser strategy navigates to the normalized URL
(every navigation step in its trace targets `r.getURL`), but the direct
strategy builds the outbound request from the raw `URL` field — it only
validates the normalized URL, so trailing slashes and surrounding white
space survive into the request it executes. -/
theorem strategies_target_url :
    (∀ (env : HTTPEnv) (r : Request) (req : HTTPRequest),
      outboundRequest env r = some req → req.url = r.URL) ∧
    (∀ (env : ChromeEnv) (r : Request) (m u f : String) (t : Nat),
      ChromeStep.navigateStep m u f t ∈ (ChromeFetcher.Fetch env r).2 → u = r.getURL) := by
  constructor
  · intro env r req hout
    unfold outboundRequest at hout
    by_cases hv : env.parseRequestURIOk r.getURL
    · rw [if_pos hv] at hout
      cases hb : buildHTTPRequest env r with
      | panicOOB =>
          rw [hb] at hout
          cases hout
      | failure =>
          rw [hb] at hout
          cases hout
      | built req' =>
          rw [hb] at hout
          simp only [Option.some.injEq] at hout
          subst hout
          exact buildHTTPRequest_url env r req' hb
    · rw [if_neg hv] at hout
      cases hout
  · intro env r m u f t h
    exact (chromeFetch_navStep env r m u f t h).1

/-- C6 counterexample: for the raw URL `"http://example.com/"` the
direct strategy's outbound request targets the raw URL with its
trailing slash, although the normalized URL drops it. -/
theorem direct_uses_raw_url_cex :
    outboundRequest httpEnvAccept slashRequest =
      some ⟨"GET", "http://example.com/", none, []⟩ ∧
    slashRequest.getURL = "http://example.com" ∧
    "http://example.com/" ≠ "http://example.com" := by
  decide

/-! ## C4: the browser strategy's navigation method -/

/-- C4 (amended): for every Request with empty form data that reaches
the navigation phase, the browser strategy issues a plain navigation to
the normalized URL with the hard-coded method `"GET"` — the Request's
method field is ignored, not forwarded. -/
theorem chrome_emptyFormData_navigates_GET (env : ChromeEnv) (r : Request)
    (hfd : r.FormData = "")
    (hv : env.parseRequestURIOk (goTrimSpace r.getURL) = true)
    (hdt : env.devtoolOk = true) (hdl : env.dialOk = true)
    (h1 : env.enableDOMOk = true) (h2 : env.enableNetworkOk = true)
    (h3 : env.enablePageOk = true) (h4 : env.enableRuntimeOk = true) :
    ChromeStep.navigateStep "GET" r.getURL "" domLoadTimeoutSeconds ∈
      (ChromeFetcher.Fetch env r).2 ∧
    ∀ m u f t, ChromeStep.navigateStep m u f t ∈ (ChromeFetcher.Fetch env r).2 →
      m = "GET" := by
  constructor
  · have hfe : firstError (enableResults env) = none := by
      simp [enableResults, firstError, h1, h2, h3, h4]
    unfold ChromeFetcher.Fetch
    rw [if_pos hv, if_pos hdt, if_pos hdl]
    unfold chromeEnablePhase
    rw [hfe]
    dsimp only
    unfold chromeNavPhase
    rw [if_pos hfd]
    cases hn : ChromeFetcher.navigate env.navigateOutcome <;> simp [enableSteps]
  · intro m u f t h
    rcases (chromeFetch_navStep env r m u f t h).2.2 with ⟨hm, _, _⟩ | ⟨hm, hne⟩
    · exact hm
    · exact absurd hfd hne

/-- C4 witness: a plain request against an all-successful browser
oracle navigates with method GET. -/
theorem chrome_emptyFormData_navigates_GET_witness :
    ChromeStep.navigateStep "GET" plainRequest.getURL "" domLoadTimeoutSeconds ∈
      (ChromeFetcher.Fetch chromeEnvOk plainRequest).2 ∧
    ∀ m u f t, ChromeStep.navigateStep m u f t ∈
      (ChromeFetcher.Fetch chromeEnvOk plainRequest).2 → m = "GET" :=
  chrome_emptyFormData_navigates_GET chromeEnvOk plainRequest rfl rfl rfl rfl rfl rfl rfl rfl

/-- C4 counterexample: a Request with method `"DELETE"` and no form
data is navigated with method `"GET"`; no navigation step with the
Request's method appears in the trace. -/
theorem chrome_method_ignored_cex :
    ChromeStep.navigateStep "GET" "http://example.com" "" 5 ∈
      (ChromeFetcher.Fetch chromeEnvOk deleteRequest).2 ∧
    ChromeStep.navigateStep "DELETE" "http://example.com" "" 5 ∉
      (ChromeFetcher.Fetch chromeEnvOk deleteRequest).2 := by
  decide

/-! ## C8: the capability-activation batch -/

/-- C8 (amended): the four capability activations are all-or-nothing in
their result: if any one fails, `Fetch` returns an error and no
navigation is ever attempted. But the batch is a plain `errgroup.Group`
with no derived context, so the call blocks until all four activations
complete and a failure does not cancel the remaining activation work —
all four activation steps are always performed. -/
theorem chrome_enable_allOrNothing (env : ChromeEnv) (r : Request)
    (hv : env.parseRequestURIOk (goTrimSpace r.getURL) = true)
    (hdt : env.devtoolOk = true) (hdl : env.dialOk = true)
    (hfail : env.enableDOMOk = false ∨ env.enableNetworkOk = false ∨
      env.enablePageOk = false ∨ env.enableRuntimeOk = false) :
    (ChromeFetcher.Fetch env r).1 = .failure .enableError ∧
    (∀ s ∈ enableSteps, s ∈ (ChromeFetcher.Fetch env r).2) ∧
    ∀ m u f t, ChromeStep.navigateStep m u f t ∉ (ChromeFetcher.Fetch env r).2 := by
  have hfe : firstError (enableResults env) = some .enableError := by
    rcases hfail with hf | hf | hf | hf
    · simp [enableResults, firstError, hf]
    · cases hd : env.enableDOMOk <;> simp [enableResults, firstError, hf, hd]
    · cases hd : env.enableDOMOk <;> cases hn : env.enableNetworkOk <;>
        simp [enableResults, firstError, hf, hd, hn]
    · cases hd : env.enableDOMOk <;> cases hn : env.enableNetworkOk <;>
        cases hp : env.enablePageOk <;> simp [enableResults, firstError, hf, hd, hn, hp]
  have hun : ChromeFetcher.Fetch env r =
      (.failure .enableError,
       .devtoolGet :: .dialConn :: (enableSteps ++ [.closeConn])) := by
    unfold ChromeFetcher.Fetch
    rw [if_pos hv, if_pos hdt, if_pos hdl]
    unfold chromeEnablePhase
    rw [hfe]
  rw [hun]
  refine ⟨rfl, ?_, ?_⟩
  · intro s hs
    simp only [List.mem_cons, List.mem_append]
    exact Or.inr (Or.inr (Or.inl hs))
  · intro m u f t
    simp [enableSteps]

/-- C8 witness: the spec's own example — the script-execution
activation fails while the three others succeed. -/
theorem chrome_enable_allOrNothing_witness :
    (ChromeFetcher.Fetch chromeEnvRuntimeFail plainRequest).1 = .failure .enableError ∧
    (∀ s ∈ enableSteps, s ∈ (ChromeFetcher.Fetch chromeEnvRuntimeFail plainRequest).2) ∧
    ∀ m u f t, ChromeStep.navigateStep m u f t ∉
      (ChromeFetcher.Fetch chromeEnvRuntimeFail plainRequest).2 :=
  chrome_enable_allOrNothing chromeEnvRuntimeFail plainRequest rfl rfl rfl
    (Or.inr (Or.inr (Or.inr rfl)))

/-- C8 counterexample: with the document-model activation failing, the
script-execution activation still runs (its step is in the trace), so
the first failure does not cancel the remaining activation work. -/
theorem chrome_enable_no_cancel_cex :
    (ChromeFetcher.Fetch chromeEnvDOMFail plainRequest).1 = .failure .enableError ∧
    ChromeStep.enableRuntime ∈ (ChromeFetcher.Fetch chromeEnvDOMFail plainRequest).2 := by
  decide

/-! ## C9: the navigation timeout, and C2: error propagation -/

/-- C9 (amended): the navigation wait is bounded by the fixed 5-second
`domLoadTimeout`; on the empty-form-data path, a missed
DOM-content-loaded signal makes `Fetch` fail with the timeout error
(never a silently empty result) and the connection is closed on that
exit path. On the form-data path the timeout error from `navigate` is
discarded (see the counterexample), so the claim's "for every call"
does not hold. -/
theorem chrome_navigation_timeout (env : ChromeEnv) (r : Request)
    (hfd : r.FormData = "")
    (hv : env.parseRequestURIOk (goTrimSpace r.getURL) = true)
    (hdt : env.devtoolOk = true) (hdl : env.dialOk = true)
    (h1 : env.enableDOMOk = true) (h2 : env.enableNetworkOk = true)
    (h3 : env.enablePageOk = true) (h4 : env.enableRuntimeOk = true)
    (ht : env.navigateOutcome = .timedOut) :
    (ChromeFetcher.Fetch env r).1 = .failure .navTimeout ∧
    ChromeStep.navigateStep "GET" r.getURL "" domLoadTimeoutSeconds ∈
      (ChromeFetcher.Fetch env r).2 ∧
    domLoadTimeoutSeconds = 5 ∧
    ChromeStep.closeConn ∈ (ChromeFetcher.Fetch env r).2 := by
  have hfe : firstError (enableResults env) = none := by
    simp [enableResults, firstError, h1, h2, h3, h4]
  have hun : ChromeFetcher.Fetch env r =
      (.failure .navTimeout,
       .devtoolGet :: .dialConn ::
         ((enableSteps ++ [.navigateStep "GET" r.getURL "" domLoadTimeoutSeconds]) ++
          [.closeConn])) := by
    unfold ChromeFetcher.Fetch
    rw [if_pos hv, if_pos hdt, if_pos hdl]
    unfold chromeEnablePhase
    rw [hfe]
    dsimp only
    unfold chromeNavPhase
    rw [if_pos hfd, ht]
    rfl
  rw [hun]
  refine ⟨rfl, ?_, rfl, ?_⟩ <;> simp

/-- C9 witness: a plain GET request whose DOM-content-loaded signal
never arrives fails with the timeout error and closes the
connection. -/
theorem chrome_navigation_timeout_witness :
    (ChromeFetcher.Fetch chromeEnvNavTimeout plainRequest).1 = .failure .navTimeout ∧
    ChromeStep.navigateStep "GET" plainRequest.getURL "" domLoadTimeoutSeconds ∈
      (ChromeFetcher.Fetch chromeEnvNavTimeout plainRequest).2 ∧
    domLoadTimeoutSeconds = 5 ∧
    ChromeStep.closeConn ∈ (ChromeFetcher.Fetch chromeEnvNavTimeout plainRequest).2 :=
  chrome_navigation_timeout chromeEnvNavTimeout plainRequest rfl rfl rfl rfl rfl rfl
    rfl rfl rfl

/-- C9 counterexample: on the form-data path, a navigation timeout is
swallowed and `Fetch` returns the extracted document instead of a
timeout error. -/
theorem chrome_timeout_swallowed_cex :
    (ChromeFetcher.Fetch chromeEnvNavTimeout loginRequest).1 = .success "<html>ok</html>" := by
  decide

/-- C2: evaluating the browser strategy at a Request with form data
whose navigation times out: the error `navigate` returned is assigned
but never checked (the source's form-data branch has no `if err != nil`
return, unlike its empty-form-data branch), so the call goes on to
document extraction and returns the document — contradicting the spec's
propagation policy that every failure aborts the call immediately. -/
theorem chrome_formData_navError_swallowed :
    ChromeFetcher.Fetch chromeEnvNavTimeout loginRequest =
      (.success "<html>ok</html>",
       [.devtoolGet, .dialConn, .enableDOM, .enableNetwork, .enablePage, .enableRuntime,
        .navigateStep "POST" "http://example.com/login" "pass=b&user=a" 5,
        .getDocument, .getOuterHTML, .closeConn]) := by
  decide

/-! ## C10: unparseable proxy configuration -/

/-- On a non-nil receiver, `responseOnReceiver` is `response`: the
inserted line-141 receiver access changes nothing when the pointer is
not nil. -/
theorem responseOnReceiver_some (bf : BaseFetcherState) (env : HTTPEnv) (r : Request) :
    BaseFetcher.responseOnReceiver (some bf) env r = .ran (BaseFetcher.response env r) := by
  unfold BaseFetcher.responseOnReceiver BaseFetcher.response
  by_cases hv : env.parseRequestURIOk r.getURL
  · rw [if_pos hv, if_pos hv]
    dsimp only
    cases hb : buildHTTPRequest env r with
    | panicOOB => rfl
    | failure => rfl
    | built req =>
        dsimp only
        cases hd : env.doRequest req with
        | failure => rfl
        | success status body =>
            by_cases h200 : status = 200 <;> simp [h200]
  · rw [if_neg hv, if_neg hv]

/-- On a non-nil receiver, `ChromeFetcher.fetchOnReceiver` is
`ChromeFetcher.Fetch`. -/
theorem chromeFetchOnReceiver_some (cf : ChromeFetcherState) (env : ChromeEnv) (r : Request) :
    ChromeFetcher.fetchOnReceiver (some cf) env r = .ran (ChromeFetcher.Fetch env r) := by
  unfold ChromeFetcher.fetchOnReceiver ChromeFetcher.Fetch
  by_cases hv : env.parseRequestURIOk (goTrimSpace r.getURL)
  · rw [if_pos hv, if_pos hv]
    by_cases hdt : env.devtoolOk
    · rw [if_pos hdt, if_pos hdt]
      by_cases hdl : env.dialOk
      · rw [if_pos hdl, if_pos hdl]
      · rw [if_neg hdl, if_neg hdl]
    · rw [if_neg hdt, if_neg hdt]
  · rw [if_neg hv, if_neg hv]

/-- C10 (amended): with a non-empty proxy configuration value that the
URL parser rejects, both constructors return the nil instance rather
than an error or a panic, and the selector wraps that typed nil in the
`Fetcher` interface value it hands the caller. A subsequent `Fetch`
call on the nil instance dereferences nil as soon as its URL passes
validation (the cookie-jar read is the first access through the
receiver); a call whose URL fails validation returns bad request
first, without dereferencing nil. -/
theorem badProxy_nil_fetcher_deref (cfg : ProxyConfig) (envH : HTTPEnv)
    (envC : ChromeEnv) (r : Request)
    (hne : 0 < cfg.proxy.length) (hbad : cfg.proxyParseOk = false)
    (hvH : envH.parseRequestURIOk r.getURL = true)
    (hvC : envC.parseRequestURIOk (goTrimSpace r.getURL) = true) :
    newBaseFetcher cfg = none ∧ newChromeFetcher cfg = none ∧
    newFetcher cfg "Base" = some (.base none) ∧
    newFetcher cfg "Chrome" = some (.chrome none) ∧
    BaseFetcher.fetchOnReceiver none envH r = .nilDereference ∧
    ChromeFetcher.fetchOnReceiver none envC r = .nilDereference := by
  refine ⟨?_, ?_, ?_, ?_, ?_, ?_⟩
  · simp [newBaseFetcher, hne, hbad]
  · simp [newChromeFetcher, hne, hbad]
  · simp [newFetcher, newBaseFetcher, hne, hbad]
  · simp [newFetcher, newChromeFetcher, hne, hbad]
  · unfold BaseFetcher.fetchOnReceiver BaseFetcher.responseOnReceiver
    rw [if_pos hvH]
  · unfold ChromeFetcher.fetchOnReceiver
    rw [if_pos hvC]

/-- C10 witness: the proxy value `"http://%zz"` is non-empty and
rejected by the parser; a valid-URL `Fetch` on the resulting nil
instance dereferences nil in both strategies. -/
theorem badProxy_nil_fetcher_deref_witness :
    newBaseFetcher badProxyConfig = none ∧ newChromeFetcher badProxyConfig = none ∧
    newFetcher badProxyConfig "Base" = some (.base none) ∧
    newFetcher badProxyConfig "Chrome" = some (.chrome none) ∧
    BaseFetcher.fetchOnReceiver none httpEnvAccept plainRequest = .nilDereference ∧
    ChromeFetcher.fetchOnReceiver none chromeEnvOk plainRequest = .nilDereference :=
  badProxy_nil_fetcher_deref badProxyConfig httpEnvAccept chromeEnvOk plainRequest
    (by decide) rfl rfl rfl

/-- C10 counterexample: not every `Fetch` call on the nil instance
dereferences nil — with a URL that fails validation, both strategies
return bad request from the validation step, which precedes the first
receiver field access, so no nil dereference occurs. -/
theorem nil_fetcher_no_deref_cex :
    newBaseFetcher badProxyConfig = none ∧
    BaseFetcher.fetchOnReceiver none httpEnvReject plainRequest =
      .ran (.failure .badRequest) ∧
    ChromeFetcher.fetchOnReceiver none chromeEnvReject plainRequest =
      .ran (.failure .badRequest, []) := by
  decide

end Fetch
